import Mathlib

/-!
Verification development for the kapsul build-and-packaging pipeline.

The JavaScript sources are embedded shallowly: each JS function that the
properties below talk about is translated into an executable Lean
definition of the same name.  Filesystem probes (`fs.existsSync`,
`fs.readFileSync`, ...) and subprocess behaviour (`execSync` exit codes,
the spawned build subprocess) are passed in explicitly as parameters, so
that one Lean evaluation corresponds to one concrete run of the code.
-/

namespace Kapsul

/-- JS truthiness of an optional string field coming from a parsed JSON
object: `undefined`/`null` and the empty string are falsy. -/
def strTruthy : Option String → Bool
  | none => false
  | some s => !(s == "")

/-- JS `x || []` applied to an optional array field. -/
def listOrEmpty : Option (List String) → List String
  | none => []
  | some l => l

/-- Shallow embedding of the `.kapsul.build.json` override object
(`DEFAULT_CUSTOM_CONFIG` lists the same fields).  Every field is optional,
matching an arbitrary JSON object.  The JS field `include` is renamed
`includePatterns` because `include` is a Lean keyword. -/
structure CustomConfig where
  buildCommand : Option String := none
  outputDir : Option String := none
  environmentVars : Option (List String) := none
  successIndicators : Option (List String) := none
  preBuildCommands : Option (List String) := none
  postBuildCommands : Option (List String) := none
  exclude : Option (List String) := none
  includePatterns : Option (List String) := none
  compressionFormat : Option String := none

/-- Result shape `{ success, messages }` used by `validateCustomBuildConfig`
and `validateBuildOutput`. -/
structure ValidationResult where
  success : Bool
  messages : List String
deriving Repr, DecidableEq

/-- Embedding of `customBuild.validateCustomBuildConfig` (customBuild.js).
`cfg` is the result of `loadCustomBuildConfig()` (`none` when the file is
missing or unparsable); `dirExists` is `fs.existsSync` restricted to the
paths the function probes. -/
def validateCustomBuildConfig (cfg : Option CustomConfig)
    (dirExists : String → Bool) : ValidationResult :=
  match cfg with
  | none => { success := false, messages := ["No custom build configuration found"] }
  | some c =>
    let messages : List String :=
      (if !(strTruthy c.buildCommand) then ["No build command specified"] else []) ++
      (if strTruthy c.outputDir && !(dirExists (c.outputDir.getD "")) then
        ["Output directory " ++ c.outputDir.getD "" ++ " does not exist"] else []) ++
      (if strTruthy c.compressionFormat &&
          !(["zip", "tar.gz", "tar"].contains (c.compressionFormat.getD "")) then
        ["Invalid compression format: " ++ c.compressionFormat.getD "" ++
          ". Supported formats are: zip, tar.gz, tar"] else [])
    { success := messages.isEmpty, messages := messages }

/-- C4: the property of a configuration that the spec says is equivalent to
validation failure. -/
def c4FailureCondition (c : CustomConfig) (dirExists : String → Bool) : Prop :=
  strTruthy c.buildCommand = false ∨
  (strTruthy c.compressionFormat = true ∧
    (["zip", "tar.gz", "tar"].contains (c.compressionFormat.getD "")) = false) ∨
  (strTruthy c.outputDir = true ∧ dirExists (c.outputDir.getD "") = false)

end Kapsul

namespace Kapsul

/-- Embedding of one entry of `PROJECT_BUILD_CONFIGS` (buildMapping.js). -/
structure ProjectBuildConfig where
  defaultCommand : String
  outputDir : String
  requiredDeps : List String
  configFiles : List String
  environmentVars : List String
  successIndicators : List String

/-- Embedding of `buildMapping.getBuildConfig`: the table
`PROJECT_BUILD_CONFIGS` keyed by project type, with the generic fallback
entry for unknown types. -/
def getBuildConfig (projectType : String) : ProjectBuildConfig :=
  if projectType = "next" then
    { defaultCommand := "next build", outputDir := ".next", requiredDeps := ["next"],
      configFiles := ["next.config.js", "next.config.ts", "next.config.mjs"],
      environmentVars := ["NODE_ENV", "NEXT_PUBLIC_"],
      successIndicators := [".next/build-manifest.json"] }
  else if projectType = "express" then
    { defaultCommand := "tsc", outputDir := "dist", requiredDeps := ["express"],
      configFiles := ["tsconfig.json"],
      environmentVars := ["NODE_ENV", "PORT"],
      successIndicators := ["dist/index.js", "dist/server.js", "dist/app.js"] }
  else if projectType = "node" then
    { defaultCommand := "tsc", outputDir := "dist", requiredDeps := [],
      configFiles := ["tsconfig.json"],
      environmentVars := ["NODE_ENV"],
      successIndicators := ["dist/index.js", "dist/main.js"] }
  else
    { defaultCommand := "npm run build", outputDir := "dist", requiredDeps := [],
      configFiles := [], environmentVars := ["NODE_ENV"], successIndicators := [] }

/-- Embedding of the JS de-duplication idiom used in `getMergedBuildConfig`:
`array.filter((value, index, self) => self.indexOf(value) === index)`,
which keeps exactly the first occurrence of every value. -/
def jsDedupFilter (l : List String) : List String :=
  (l.enum.filter (fun p => l.indexOf p.2 == p.1)).map Prod.snd

/-- The part of the object returned by `customBuild.getMergedBuildConfig`
that the verified properties are about (the remaining spread fields carry
no merge logic). -/
structure MergedBuildConfig where
  environmentVars : List String
  successIndicators : List String

/-- Embedding of `customBuild.getMergedBuildConfig`: without an override the
default table entry is returned unchanged; with an override the two
list-valued fields are concatenated (default first) and de-duplicated. -/
def getMergedBuildConfig (projectType : String) (customConfig : Option CustomConfig) :
    MergedBuildConfig :=
  let defaultConfig := getBuildConfig projectType
  match customConfig with
  | none =>
    { environmentVars := defaultConfig.environmentVars,
      successIndicators := defaultConfig.successIndicators }
  | some c =>
    { environmentVars :=
        jsDedupFilter (defaultConfig.environmentVars ++ listOrEmpty c.environmentVars),
      successIndicators :=
        jsDedupFilter (defaultConfig.successIndicators ++ listOrEmpty c.successIndicators) }

/-! ## Build executor (build.js `executeBuild` with customBuild pre/post hooks) -/

/-- Outcome of sequentially running a list of shell commands with
`execSync` inside one try/catch: the commands actually launched, and the
boolean the surrounding function returns. -/
structure PrePostOutcome where
  ran : List String
  ok : Bool
deriving Repr, DecidableEq

/-- The `for (const command of commands) execSync(command)` loop of
`runPreBuildCommands` / `runPostBuildCommands`: `exec` gives each command
its exit code; `execSync` throws on the first non-zero exit, which the
enclosing catch turns into `false`, so later commands never run. -/
def runCommandsSeq (exec : String → Int) : List String → PrePostOutcome
  | [] => { ran := [], ok := true }
  | c :: cs =>
    if exec c = 0 then
      let rest := runCommandsSeq exec cs
      { ran := c :: rest.ran, ok := rest.ok }
    else
      { ran := [c], ok := false }

/-- Embedding of `customBuild.runPreBuildCommands`: `cfg` is the loaded
override (`none` when missing); with no config or no/empty
`preBuildCommands` it returns `true` running nothing. -/
def runPreBuildCommands (cfg : Option CustomConfig) (exec : String → Int) :
    PrePostOutcome :=
  match cfg with
  | none => { ran := [], ok := true }
  | some c =>
    match c.preBuildCommands with
    | none => { ran := [], ok := true }
    | some cmds =>
      if cmds.isEmpty then { ran := [], ok := true }
      else runCommandsSeq exec cmds

/-- Embedding of `customBuild.runPostBuildCommands` (same shape as the
pre-build runner, over `postBuildCommands`). -/
def runPostBuildCommands (cfg : Option CustomConfig) (exec : String → Int) :
    PrePostOutcome :=
  match cfg with
  | none => { ran := [], ok := true }
  | some c =>
    match c.postBuildCommands with
    | none => { ran := [], ok := true }
    | some cmds =>
      if cmds.isEmpty then { ran := [], ok := true }
      else runCommandsSeq exec cmds

/-- Behaviour of the spawned build subprocess: either the `close` event
fires with an exit code (the accumulated stdout/stderr chunks are
`output`), or the `error` event fires (command not spawnable). -/
inductive SpawnOutcome where
  | closed (code : Int) (output : String)
  | spawnError (message : String)

/-- Embedding of the object `executeBuild` resolves or rejects with. -/
structure BuildResult where
  success : Bool
  output : String
  command : String
  code : Option Int

/-- One concrete run environment for `executeBuild`: the state of the
`.kapsul.build.json` file, filesystem probes, `execSync` exit codes for
pre/post commands, the command `detectBuildCommand()` resolves to, and the
build subprocess behaviour. -/
structure ExecEnv where
  cfgExists : Bool
  cfgParsed : Option CustomConfig
  dirExists : String → Bool
  exec : String → Int
  buildCommand : String
  spawn : SpawnOutcome

/-- Embedding of `customBuild.hasCustomBuildConfig` (existence of the
`.kapsul.build.json` file). -/
def hasCustomBuildConfig (env : ExecEnv) : Bool := env.cfgExists

/-- Embedding of `customBuild.loadCustomBuildConfig`: `none` when the file is missing or
its JSON does not parse. -/
def loadCustomBuildConfig (env : ExecEnv) : Option CustomConfig :=
  if env.cfgExists then env.cfgParsed else none

/-- Observable trace of one `executeBuild` run: which pre/post commands were
launched, whether the build subprocess was spawned, and whether the promise
resolved or rejected with which result. -/
structure ExecTrace where
  preBuildRan : List String
  buildSpawned : Bool
  postBuildRan : List String
  rejected : Bool
  result : BuildResult

/-- Embedding of `build.executeBuild` (build.js).  Key control flow taken
verbatim from the source: the boolean returned by `runPreBuildCommands` is
discarded, so the build command is spawned regardless of pre-build
failures; on `close` the post-build commands run (their boolean also
discarded) whatever the exit code; `success` is
`code === 0 && (hasCustomBuildConfig() ? validateCustomBuildConfig().success : true)`. -/
def executeBuild (env : ExecEnv) (useCustomConfig : Bool) : ExecTrace :=
  let pre :=
    if useCustomConfig || hasCustomBuildConfig env then
      runPreBuildCommands (loadCustomBuildConfig env) env.exec
    else { ran := [], ok := true }
  match env.spawn with
  | .spawnError msg =>
    { preBuildRan := pre.ran, buildSpawned := true, postBuildRan := [],
      rejected := true,
      result := { success := false, output := msg, command := env.buildCommand,
                  code := none } }
  | .closed code out =>
    let post :=
      if useCustomConfig || hasCustomBuildConfig env then
        runPostBuildCommands (loadCustomBuildConfig env) env.exec
      else { ran := [], ok := true }
    let success := code == 0 &&
      (if hasCustomBuildConfig env then
        (validateCustomBuildConfig (loadCustomBuildConfig env) env.dirExists).success
      else true)
    { preBuildRan := pre.ran, buildSpawned := true, postBuildRan := post.ran,
      rejected := false,
      result := { success := success, output := out, command := env.buildCommand,
                  code := some code } }

/-- Formalization of claim C1 exactly as stated: whenever the configured
pre-build commands are non-empty and some pre-build command exits non-zero,
the execution aborts — the build command is not spawned and the returned
result is a failure. -/
def c1ClaimStatement : Prop :=
  ∀ (env : ExecEnv) (u : Bool) (cmds : List String),
    (u || hasCustomBuildConfig env) = true →
    (loadCustomBuildConfig env).bind (fun c => c.preBuildCommands) = some cmds →
    cmds ≠ [] →
    (∃ c ∈ cmds, env.exec c ≠ 0) →
    (executeBuild env u).buildSpawned = false ∧
      (executeBuild env u).result.success = false

/-- Concrete run used to settle C1: two configured pre-build commands, the
first of which exits 1, while the build subprocess itself exits 0. -/
def c1Env : ExecEnv :=
  { cfgExists := true,
    cfgParsed := some { buildCommand := some "make",
                        preBuildCommands := some ["failcmd", "aftercmd"] },
    dirExists := fun _ => false,
    exec := fun c => if c = "failcmd" then 1 else 0,
    buildCommand := "make",
    spawn := .closed 0 "build ok" }

/-- Formalization of claim C2 exactly as stated: when the subprocess
terminates, the result records its exit code and `success` is true iff the
exit code equals 0. -/
def c2ClaimStatement : Prop :=
  ∀ (env : ExecEnv) (u : Bool) (code : Int) (out : String),
    env.spawn = .closed code out →
    (executeBuild env u).result.code = some code ∧
      ((executeBuild env u).result.success = true ↔ code = 0)

/-- Concrete run used to settle C2: the override file exists but declares no
build command, so `validateCustomBuildConfig` fails although the build
subprocess exits 0. -/
def c2Env : ExecEnv :=
  { cfgExists := true,
    cfgParsed := some {},
    dirExists := fun _ => false,
    exec := fun _ => 0,
    buildCommand := "npm run build",
    spawn := .closed 0 "ok" }

/-- Formalization of claim C3 exactly as stated: with non-empty configured
post-build commands, they run only when the build exited 0, a failing
post-build command degrades `success` to false, and the captured build
output is retained. -/
def c3ClaimStatement : Prop :=
  ∀ (env : ExecEnv) (u : Bool) (code : Int) (out : String) (cmds : List String),
    env.spawn = .closed code out →
    (loadCustomBuildConfig env).bind (fun c => c.postBuildCommands) = some cmds →
    cmds ≠ [] →
    ((executeBuild env u).postBuildRan ≠ [] → code = 0) ∧
      ((∃ c ∈ (executeBuild env u).postBuildRan, env.exec c ≠ 0) →
        (executeBuild env u).result.success = false) ∧
      (executeBuild env u).result.output = out

/-- Concrete run used to settle C3: the build subprocess exits 1, yet the
configured post-build command still runs; a second variant of the same
environment (exit 0, failing post-build command) backs the degradation
part. -/
def c3Env : ExecEnv :=
  { cfgExists := true,
    cfgParsed := some { buildCommand := some "make",
                        postBuildCommands := some ["postfail"] },
    dirExists := fun _ => false,
    exec := fun c => if c = "postfail" then 1 else 0,
    buildCommand := "make",
    spawn := .closed 1 "boom" }

/-! ## Pattern matching and archive strategies (compression.js) -/

/-- Token of the regex the tar filter builds with
`new RegExp(pattern.replace(/\*/g, ".*"))`: each `*` becomes `.*`, a `.`
stays the any-character metacharacter, everything else is a literal. -/
inductive RegexTok where
  | star
  | anyChar
  | lit (c : Char)
deriving Repr, DecidableEq

/-- Tokenization of a pattern into the regex of the tar filter. -/
def regexTokens (pattern : String) : List RegexTok :=
  pattern.toList.map fun c =>
    if c = '*' then RegexTok.star
    else if c = '.' then RegexTok.anyChar
    else RegexTok.lit c

/-- Anchored match of the token list against a suffix of the subject.
`fuel` only bounds the recursion: every call strictly decreases
`toks.length + s.length`, so the fuel supplied by `regexTest` can never be
exhausted; it keeps the definition structurally recursive (evaluable by
`decide`). -/
def regexMatchHere (fuel : Nat) (toks : List RegexTok) (s : List Char) : Bool :=
  match fuel with
  | 0 => false
  | fuel + 1 =>
    match toks, s with
    | [], _ => true
    | RegexTok.star :: ts, s =>
      regexMatchHere fuel ts s ||
        (match s with
         | [] => false
         | _ :: s' => regexMatchHere fuel (RegexTok.star :: ts) s')
    | RegexTok.anyChar :: ts, _ :: s' => regexMatchHere fuel ts s'
    | RegexTok.anyChar :: _, [] => false
    | RegexTok.lit c :: ts, d :: s' => c = d && regexMatchHere fuel ts s'
    | RegexTok.lit _ :: _, [] => false

/-- JS `RegExp.prototype.test`: unanchored search at every start position. -/
def regexTest (pattern p : String) : Bool :=
  let toks := regexTokens pattern
  let cs := p.toList
  (List.range (cs.length + 1)).any fun i =>
    regexMatchHere (toks.length + cs.length + 1) toks (cs.drop i)

/-- JS `String.prototype.includes`: substring containment. -/
def strIncludes (s sub : String) : Bool :=
  (List.range (s.toList.length + 1)).any fun i =>
    sub.toList.isPrefixOf (s.toList.drop i)

/-- The per-pattern predicate of the `filter` callback in the tar
strategies: patterns containing `*` go through the regex translation,
plain patterns match by substring containment (`path.includes(pattern)`). -/
def patternMatches (pattern p : String) : Bool :=
  if pattern.toList.contains '*' then regexTest pattern p
  else strIncludes p pattern

/-- Include/exclude pattern pair (the `patterns` object). The JS field
`include` is renamed `includes` (`include` is a Lean keyword). -/
structure Patterns where
  exclude : List String
  includes : List String

/-- Embedding of the `filter` callback shared by `createTarGzArchive` and
`createTarArchive`: excluded paths are dropped first; when the include
list is non-empty only paths matching some include pattern survive. -/
def tarFilter (patterns : Patterns) (p : String) : Bool :=
  if patterns.exclude.any (fun pattern => patternMatches pattern p) then false
  else if patterns.includes.length > 0 then
    patterns.includes.any (fun pattern => patternMatches pattern p)
  else true

/-- One path component of a minimatch-style glob: `*` matches any run of
characters inside the component, everything else (including `.`) is
literal.  Fuel as in `regexMatchHere`. -/
def compMatch (fuel : Nat) (pat s : List Char) : Bool :=
  match fuel with
  | 0 => false
  | fuel + 1 =>
    match pat, s with
    | [], [] => true
    | '*' :: ps, s =>
      compMatch fuel ps s ||
        (match s with
         | [] => false
         | _ :: s' => compMatch fuel ('*' :: ps) s')
    | c :: ps, d :: s' => c = d && compMatch fuel ps s'
    | _ :: _, [] => false
    | [], _ :: _ => false

/-- Split a character list on a separator (JS-style `split`). -/
def splitOnChar (sep : Char) : List Char → List (List Char)
  | [] => [[]]
  | c :: cs =>
    if c = sep then [] :: splitOnChar sep cs
    else
      match splitOnChar sep cs with
      | [] => [[c]]
      | g :: gs => (c :: g) :: gs

/-- Component-wise minimatch: a `**` component spans any number of path
components, other components must match by `compMatch`. -/
def globComponents (fuel : Nat) (pats comps : List (List Char)) : Bool :=
  match fuel with
  | 0 => false
  | fuel + 1 =>
    match pats, comps with
    | [], [] => true
    | ['*', '*'] :: ps, comps =>
      globComponents fuel ps comps ||
        (match comps with
         | [] => false
         | _ :: cs => globComponents fuel (['*', '*'] :: ps) cs)
    | p :: ps, c :: cs =>
      compMatch (p.length + c.length + 1) p c && globComponents fuel ps cs
    | _ :: _, [] => false
    | [], _ :: _ => false

/-- Minimatch model of one `archive.glob(pattern, { dot: true })` call in
`createZipArchive`: the glob is split on `/`, `**` spans components, `*`
spans characters within one component (`dot: true` disables the special
casing of leading dots). -/
def minimatchLite (pattern p : String) : Bool :=
  let pats := splitOnChar '/' pattern.toList
  let comps := splitOnChar '/' p.toList
  globComponents (pats.length + comps.length + 1) pats comps

/-- Embedding of the entry set `createZipArchive` writes: the base call
`archive.glob("**/*", { ignore: patterns.exclude, dot: true })` plus, per
include pattern, an additional `archive.glob(pattern, { dot: true })`
carrying no ignore list. -/
def zipWrites (patterns : Patterns) (p : String) : Bool :=
  (minimatchLite "**/*" p &&
      !(patterns.exclude.any fun pattern => minimatchLite pattern p)) ||
    (patterns.includes.any fun pattern => minimatchLite pattern p)

/-- Formalization of claim C5 exactly as stated: under every compression
format, with a non-empty include set a path is written only if it matches
some include pattern and passes the exclude filter. -/
def c5ClaimStatement : Prop :=
  ∀ (patterns : Patterns) (p : String), patterns.includes ≠ [] →
    (zipWrites patterns p = true →
      (patterns.includes.any fun pattern => minimatchLite pattern p) = true ∧
        (patterns.exclude.any fun pattern => minimatchLite pattern p) = false) ∧
    (tarFilter patterns p = true →
      (patterns.includes.any fun pattern => patternMatches pattern p) = true ∧
        (patterns.exclude.any fun pattern => patternMatches pattern p) = false)

/-- The size-warning side effect in `createZipArchive`'s progress handler:
every progress event whose cumulative `processedBytes` exceeds 50 MiB logs
the warning — the source keeps no once-only flag. -/
def zipWarningStep (log : List String) (processedBytes : Nat) : List String :=
  if processedBytes > 50 * 1024 * 1024 then
    log ++ ["Warning: Creating a large deployment archive..."]
  else log

/-- Warnings logged across one build's sequence of zip progress events,
each event carrying its cumulative processed byte count. -/
def zipWarnings (events : List Nat) : List String :=
  events.foldl zipWarningStep []

/-- Formalization of claim C9 exactly as stated: once the 50 MiB threshold
is crossed during a build, the warning is emitted exactly once. -/
def c9ClaimStatement : Prop :=
  ∀ events : List Nat, (∃ b ∈ events, b > 50 * 1024 * 1024) →
    (zipWarnings events).length = 1

/-- Outcome of the tar-creation stage of `createTarGzArchive`: either
`tar.c` resolves (the temporary `.tar` file has been materialized), or it
rejects — in which case whether a partially-written temporary file remains
depends on how far the tar library got, so it is a parameter of the run. -/
inductive TarStage where
  | ok
  | err (leftFile : Bool)
deriving Repr, DecidableEq

/-- Which event settles the gzip streaming stage: the destination `finish`
event, a read-stream error, or a write-stream error. -/
inductive GzStreamEvent where
  | finish
  | sourceError
  | destError
deriving Repr, DecidableEq

/-- Observable outcome of `createTarGzArchive`: whether the promise
resolved, and whether the temporary tar file still exists afterwards. -/
structure TarGzOutcome where
  resolved : Bool
  tmpTarExists : Bool
deriving Repr, DecidableEq

/-- Embedding of `createTarGzArchive`'s control flow: after a successful
tar stage, each of the three settling events unlinks the temporary tar
file (`finish` before resolving, both error handlers before rejecting);
when the tar stage itself rejects, the promise rejects through
`.catch(err => reject(err))`, which performs no cleanup. -/
def createTarGzArchive (tarStage : TarStage) (ev : GzStreamEvent) : TarGzOutcome :=
  match tarStage with
  | .err leftFile => { resolved := false, tmpTarExists := leftFile }
  | .ok =>
    match ev with
    | .finish => { resolved := true, tmpTarExists := false }
    | .sourceError => { resolved := false, tmpTarExists := false }
    | .destError => { resolved := false, tmpTarExists := false }

/-- Formalization of claim C6 exactly as stated: however the operation
settles — resolution or rejection at any stage — the temporary tar file no
longer exists. -/
def c6ClaimStatement : Prop :=
  ∀ (tarStage : TarStage) (ev : GzStreamEvent),
    (createTarGzArchive tarStage ev).tmpTarExists = false

/-- Embedding of `customBuild.getDeploymentPatterns`: without a loadable
override the wide default exclude list is used; with one, the override's
`exclude` (defaulting to just `node_modules`/`.git` when the field is
absent) and `include` (defaulting to empty). -/
def getDeploymentPatterns (cfg : Option CustomConfig) : Patterns :=
  match cfg with
  | none =>
    { includes := [],
      exclude := ["node_modules", ".git", ".github", "coverage", "tests", "test",
                  "*.log", "build.zip"] }
  | some c =>
    { includes := listOrEmpty c.includePatterns,
      exclude :=
        match c.exclude with
        | none => ["node_modules", ".git"]
        | some l => l }

/-- The pattern-resolution prefix of `compression.createCompressedArchive`:
a built-in default exclude list naming the output artifact, replaced by
`getDeploymentPatterns()` when the override file exists, then overridden
field-wise by explicit caller options. -/
def createCompressedArchivePatterns (cfgExists : Bool) (loadedCfg : Option CustomConfig)
    (optExclude optInclude : Option (List String)) (outputFile : String) : Patterns :=
  let patterns : Patterns :=
    if cfgExists then getDeploymentPatterns loadedCfg
    else
      { exclude := ["node_modules", ".git", ".github", "coverage", "tests", "test",
                    "*.log", outputFile],
        includes := [] }
  { exclude := optExclude.getD patterns.exclude,
    includes := optInclude.getD patterns.includes }

/-! ## Project type detection (project.js) -/

/-- The fields of `package.json` consulted by the detection logic.
Dependency/script maps are association lists of (name, value). -/
structure PackageJson where
  dependencies : List (String × String) := []
  devDependencies : List (String × String) := []
  scripts : List (String × String) := []
  main : Option String := none
  typeField : Option String := none
  enginesNode : Option String := none

/-- Lookup in a JS object used as a string map. -/
def objGet (obj : List (String × String)) (key : String) : Option String :=
  (obj.find? (fun kv => kv.1 == key)).map Prod.snd

/-- Combination of the two dependency maps by JS spread
(`{ ...packageJson.dependencies, ...packageJson.devDependencies }`):
dev entries override regular ones. -/
def combinedDeps (pkg : PackageJson) (key : String) : Option String :=
  match objGet pkg.devDependencies key with
  | some v => some v
  | none => objGet pkg.dependencies key

/-- JS-truthy presence of a dependency entry in the combined map. -/
def depsTruthy (pkg : PackageJson) (key : String) : Bool :=
  strTruthy (combinedDeps pkg key)

/-- Filesystem view of the project directory: `files` lists every path for
which `fs.existsSync` is true, `dirs` those that are directories, `pkg` is
the parse result of `package.json` (`none` = missing or malformed), and
`fileContent` gives the readable text of a path (`none` = read error). -/
structure ProjectFS where
  files : List String
  dirs : List String
  pkg : Option PackageJson
  fileContent : String → Option String

/-- Embedding of `project.hasFile` (an `fs.existsSync` probe). -/
def hasFile (fsv : ProjectFS) (filename : String) : Bool :=
  fsv.files.contains filename

/-- Embedding of `project.hasDirectory` (`fs.existsSync` plus `isDirectory`). -/
def hasDirectory (fsv : ProjectFS) (dirname : String) : Bool :=
  fsv.files.contains dirname && fsv.dirs.contains dirname

/-- Embedding of `project.isNextProject` with its filesystem probes. -/
def isNextProject (fsv : ProjectFS) (pkg : PackageJson) : Bool :=
  depsTruthy pkg "next" ||
  hasFile fsv "next.config.js" ||
  (hasDirectory fsv "pages" &&
    (hasFile fsv "pages/_app.js" || hasFile fsv "pages/_app.tsx")) ||
  (hasDirectory fsv "app" &&
    (hasFile fsv "app/layout.js" || hasFile fsv "app/layout.tsx")) ||
  hasDirectory fsv ".next"

/-- The candidate server files probed by `isExpressProject`. -/
def serverFiles : List String :=
  ["server.js", "app.js", "index.js", "src/server.js", "src/app.js", "src/index.js"]

/-- The four `content.includes(...)` probes of `isExpressProject`
(`\x27` is the single-quote character). -/
def contentMentionsExpress (content : String) : Bool :=
  strIncludes content "require(\x27express\x27)" ||
  strIncludes content "require(\"express\")" ||
  strIncludes content "from \x27express\x27" ||
  strIncludes content "from \"express\""

/-- Embedding of `project.isExpressProject`. -/
def isExpressProject (fsv : ProjectFS) (pkg : PackageJson) : Bool :=
  depsTruthy pkg "express" ||
  serverFiles.any (fun file =>
    hasFile fsv file &&
      (match fsv.fileContent file with
       | none => false
       | some content => contentMentionsExpress content)) ||
  hasDirectory fsv "routes" || hasDirectory fsv "src/routes" ||
  hasDirectory fsv "middleware" || hasDirectory fsv "src/middleware"

/-- The conventional entry points probed by `isNodeProject`. -/
def commonEntryPoints : List String :=
  ["index.js", "main.js", "app.js", "server.js", "src/index.js", "src/main.js",
   "src/app.js"]

/-- The checks of `isNodeProject` that run after the `packageJson.main`
short-circuit: entry-point files, a `start` script, a declared module
type, an engines constraint, or any regular dependency. -/
def isNodeProjectRest (fsv : ProjectFS) (pkg : PackageJson) : Bool :=
  commonEntryPoints.any (fun e => hasFile fsv e) ||
  strTruthy (objGet pkg.scripts "start") ||
  pkg.typeField == some "module" || pkg.typeField == some "commonjs" ||
  strTruthy pkg.enginesNode ||
  !(pkg.dependencies.isEmpty)

/-- Embedding of `project.isNodeProject`: a truthy `main` entry decides the
answer by the existence of that file alone; only a falsy/absent `main`
falls through to the remaining checks. -/
def isNodeProject (fsv : ProjectFS) : Bool :=
  if !(hasFile fsv "package.json") then false
  else
    match fsv.pkg with
    | none => false
    | some pkg =>
      match pkg.main with
      | some m => if m = "" then isNodeProjectRest fsv pkg else hasFile fsv m
      | none => isNodeProjectRest fsv pkg

/-- Embedding of `project.detectProjectType`. -/
def detectProjectType (fsv : ProjectFS) : String :=
  if !(hasFile fsv "package.json") then "unknown"
  else
    match fsv.pkg with
    | none => "unknown"
    | some pkg =>
      if isNextProject fsv pkg then "next"
      else if isExpressProject fsv pkg then "express"
      else if isNodeProject fsv then "node"
      else "unknown"

/-- Formalization of claim C8 exactly as stated: a parsed manifest with no
truthy `next`/`express` dependency but a truthy `start` script detects as
`node`, whatever else the project contains. -/
def c8ClaimStatement : Prop :=
  ∀ (fsv : ProjectFS) (pkg : PackageJson),
    fsv.pkg = some pkg →
    hasFile fsv "package.json" = true →
    depsTruthy pkg "next" = false →
    depsTruthy pkg "express" = false →
    strTruthy (objGet pkg.scripts "start") = true →
    detectProjectType fsv = "node"

/-- Concrete project used to settle C8: no framework dependency, a valid
`start` script, but a declared `main` entry that does not exist on disk. -/
def c8Fs : ProjectFS :=
  { files := ["package.json"],
    dirs := [],
    pkg := some { scripts := [("start", "node index.js")], main := some "app-main.js" },
    fileContent := fun _ => none }

/-- Concrete project used for the C8 witness: no framework evidence at
all, no `main` entry, a valid `start` script. -/
def c8WitnessFs : ProjectFS :=
  { files := ["package.json"],
    dirs := [],
    pkg := some { scripts := [("start", "node index.js")] },
    fileContent := fun _ => none }

/-! ## Theorems -/

theorem mem_jsDedupFilter {l : List String} {x : String} :
    x ∈ jsDedupFilter l ↔ x ∈ l := by
  unfold jsDedupFilter
  constructor
  · intro hx
    obtain ⟨p, hp, hpx⟩ := List.mem_map.1 hx
    have hpe := (List.mem_filter.1 hp).1
    have := List.mem_enum_iff_getElem?.1 hpe
    subst hpx
    exact List.getElem?_mem this
  · intro hx
    refine List.mem_map.2 ⟨(l.indexOf x, x), List.mem_filter.2 ⟨?_, ?_⟩, rfl⟩
    · exact List.mk_mem_enum_iff_getElem?.2 (List.getElem?_indexOf hx)
    · simp

theorem nodup_jsDedupFilter (l : List String) : (jsDedupFilter l).Nodup := by
  unfold jsDedupFilter
  have henum : l.enum.Nodup :=
    List.Nodup.of_map Prod.fst (by simpa using List.nodup_enum_map_fst l)
  refine List.Nodup.map_on ?_ (henum.filter _)
  intro p hp q hq hpq
  have hp' := (List.mem_filter.1 hp).2
  have hq' := (List.mem_filter.1 hq).2
  have hp1 : l.indexOf p.2 = p.1 := by simpa using hp'
  have hq1 : l.indexOf q.2 = q.1 := by simpa using hq'
  have : p.1 = q.1 := by rw [← hp1, ← hq1, hpq]
  exact Prod.ext this hpq

theorem toFinset_jsDedupFilter (l : List String) :
    (jsDedupFilter l).toFinset = l.toFinset := by
  ext x
  simp [List.mem_toFinset, mem_jsDedupFilter]

/-- The commands `runCommandsSeq` launches are exactly the zero-exit prefix
followed by the first failing command (if any). -/
theorem runCommandsSeq_ran (exec : String → Int) (cmds : List String) :
    (runCommandsSeq exec cmds).ran =
      cmds.takeWhile (fun c => exec c == 0) ++
        (cmds.dropWhile (fun c => exec c == 0)).take 1 := by
  induction cmds with
  | nil => rfl
  | cons c cs ih =>
    by_cases h : exec c = 0
    · simp [runCommandsSeq, h, List.takeWhile_cons, List.dropWhile_cons, ih]
    · simp [runCommandsSeq, h, List.takeWhile_cons, List.dropWhile_cons]

/-- C4 (`functional_correctness`): for every loaded configuration,
`validateCustomBuildConfig` returns a non-empty message list iff the build
command is empty/absent, the compression format is set to a value outside
{zip, tar.gz, tar}, or a declared output directory does not exist; in all
other cases it returns zero messages (and `success` mirrors emptiness). -/
theorem c4_validate_iff (c : CustomConfig) (dirExists : String → Bool) :
    ((validateCustomBuildConfig (some c) dirExists).messages ≠ [] ↔
      c4FailureCondition c dirExists) ∧
    (validateCustomBuildConfig (some c) dirExists).success =
      (validateCustomBuildConfig (some c) dirExists).messages.isEmpty := by
  constructor
  · unfold validateCustomBuildConfig c4FailureCondition
    by_cases h1 : strTruthy c.buildCommand = false <;>
      by_cases h2 : strTruthy c.outputDir = true <;>
        by_cases h3 : dirExists (c.outputDir.getD "") = false <;>
          by_cases h4 : strTruthy c.compressionFormat = true <;>
            by_cases h5 : (["zip", "tar.gz", "tar"].contains
              (c.compressionFormat.getD "")) = false <;>
      simp_all
  · unfold validateCustomBuildConfig
    simp

/-- C7 (`algebraic_relational`): for every project type and override, the
merged `environmentVars` and `successIndicators` are the de-duplicated
union (as a `Finset`, order-independent) of the default entry and the
override entry; in particular merging `["a"]` into `["a","b"]` through the
same de-duplication yields exactly `["a","b"]`, i.e. the set `{"a","b"}`. -/
theorem c7_merge_dedup_union (projectType : String) (c : CustomConfig) :
    ((getMergedBuildConfig projectType (some c)).environmentVars.toFinset =
        (getBuildConfig projectType).environmentVars.toFinset ∪
          (listOrEmpty c.environmentVars).toFinset ∧
      (getMergedBuildConfig projectType (some c)).environmentVars.Nodup) ∧
    ((getMergedBuildConfig projectType (some c)).successIndicators.toFinset =
        (getBuildConfig projectType).successIndicators.toFinset ∪
          (listOrEmpty c.successIndicators).toFinset ∧
      (getMergedBuildConfig projectType (some c)).successIndicators.Nodup) ∧
    jsDedupFilter (["a", "b"] ++ ["a"]) = ["a", "b"] := by
  refine ⟨⟨?_, ?_⟩, ⟨?_, ?_⟩, ?_⟩
  · simp [getMergedBuildConfig, toFinset_jsDedupFilter]
  · exact nodup_jsDedupFilter _
  · simp [getMergedBuildConfig, toFinset_jsDedupFilter]
  · exact nodup_jsDedupFilter _
  · decide

/-- C1 counterexample: in the concrete run `c1Env` the first pre-build
command exits 1, yet the build subprocess is still spawned and the returned
result is a success — `executeBuild` discards the boolean returned by
`runPreBuildCommands`, so the claim as stated is false. -/
theorem c1_counterexample_not_aborted : ¬ c1ClaimStatement := by
  intro h
  have hc :=
    (h c1Env true ["failcmd", "aftercmd"] (by decide) (by decide) (by decide)
      ⟨"failcmd", by decide, by decide⟩).1
  have hs : (executeBuild c1Env true).buildSpawned = true := by decide
  rw [hs] at hc
  exact absurd hc (by decide)

/-- C1 (amended, `error_handling`): when a pre-build command exits non-zero,
the remaining pre-build commands of that phase do not run (the launched
list is the zero-exit prefix plus the first failing command), but the
execution is NOT aborted: the build command is still spawned, and the
returned BuildResult is exactly what it would have been had every pre/post
command succeeded. -/
theorem c1_pre_build_failure_behavior (env : ExecEnv) (u : Bool)
    (cmds : List String)
    (huse : (u || hasCustomBuildConfig env) = true)
    (hcmds : (loadCustomBuildConfig env).bind (fun c => c.preBuildCommands) = some cmds)
    (hne : cmds ≠ [])
    (hfail : ∃ c ∈ cmds, env.exec c ≠ 0) :
    (executeBuild env u).preBuildRan =
        cmds.takeWhile (fun c => env.exec c == 0) ++
          (cmds.dropWhile (fun c => env.exec c == 0)).take 1 ∧
    (executeBuild env u).buildSpawned = true ∧
    (executeBuild env u).result =
      (executeBuild { env with exec := fun _ => 0 } u).result := by
  obtain ⟨c, hl, hc⟩ :
      ∃ c, loadCustomBuildConfig env = some c ∧ c.preBuildCommands = some cmds := by
    cases hl : loadCustomBuildConfig env with
    | none => rw [hl] at hcmds; simp at hcmds
    | some c => rw [hl] at hcmds; exact ⟨c, rfl, hcmds⟩
  have hemp : cmds.isEmpty = false := by
    cases cmds with
    | nil => exact absurd rfl hne
    | cons a l => rfl
  have hpre : ∀ e : String → Int,
      runPreBuildCommands (loadCustomBuildConfig env) e = runCommandsSeq e cmds := by
    intro e
    rw [hl]
    unfold runPreBuildCommands
    simp [hc, hemp]
  cases hsp : env.spawn with
  | spawnError msg =>
    refine ⟨?_, ?_, ?_⟩
    · simp [executeBuild, huse, hsp, hpre, runCommandsSeq_ran]
    · simp [executeBuild, hsp]
    · simp [executeBuild, hsp, hasCustomBuildConfig, loadCustomBuildConfig]
  | closed code out =>
    refine ⟨?_, ?_, ?_⟩
    · simp [executeBuild, huse, hsp, hpre, runCommandsSeq_ran]
    · simp [executeBuild, hsp]
    · simp [executeBuild, hsp, hasCustomBuildConfig, loadCustomBuildConfig]

theorem c1_pre_build_failure_behavior_witness :
    ((true || hasCustomBuildConfig c1Env) = true) ∧
    ((loadCustomBuildConfig c1Env).bind (fun c => c.preBuildCommands) =
      some ["failcmd", "aftercmd"]) ∧
    (["failcmd", "aftercmd"] ≠ ([] : List String)) ∧
    (∃ c ∈ ["failcmd", "aftercmd"], c1Env.exec c ≠ 0) ∧
    ((executeBuild c1Env true).preBuildRan =
        (["failcmd", "aftercmd"].takeWhile (fun c => c1Env.exec c == 0)) ++
          ((["failcmd", "aftercmd"].dropWhile (fun c => c1Env.exec c == 0)).take 1) ∧
      (executeBuild c1Env true).buildSpawned = true ∧
      (executeBuild c1Env true).result =
        (executeBuild { c1Env with exec := fun _ => 0 } true).result) :=
  ⟨by decide, by decide, by decide, ⟨"failcmd", by decide, by decide⟩,
    c1_pre_build_failure_behavior c1Env true ["failcmd", "aftercmd"]
      (by decide) (by decide) (by decide) ⟨"failcmd", by decide, by decide⟩⟩

/-- C2 counterexample: in the concrete run `c2Env` the subprocess exits 0
but the override file declares no build command, so
`validateCustomBuildConfig` fails and `success` is false — `success` is not
equivalent to `exitCode == 0`. -/
theorem c2_counterexample_success_not_iff_exit_zero : ¬ c2ClaimStatement := by
  intro h
  have h0 := (h c2Env true 0 "ok" rfl).2.mpr rfl
  have h1 : (executeBuild c2Env true).result.success = false := by decide
  rw [h1] at h0
  exact absurd h0 (by decide)

/-- C2 (amended, `functional_correctness`): when the subprocess terminates,
the result records the exit code, and `success` is true iff the exit code
is 0 AND, when a custom build configuration file exists, that
configuration validates. -/
theorem c2_success_iff (env : ExecEnv) (u : Bool) (code : Int) (out : String)
    (hspawn : env.spawn = .closed code out) :
    (executeBuild env u).result.code = some code ∧
    ((executeBuild env u).result.success = true ↔
      (code = 0 ∧ (hasCustomBuildConfig env = true →
        (validateCustomBuildConfig (loadCustomBuildConfig env)
          env.dirExists).success = true))) := by
  constructor
  · simp [executeBuild, hspawn]
  · cases hh : hasCustomBuildConfig env <;>
      simp [executeBuild, hspawn, hh, Bool.and_eq_true]

theorem c2_success_iff_witness :
    (c2Env.spawn = .closed 0 "ok") ∧
    ((executeBuild c2Env true).result.code = some 0 ∧
      ((executeBuild c2Env true).result.success = true ↔
        ((0 : Int) = 0 ∧ (hasCustomBuildConfig c2Env = true →
          (validateCustomBuildConfig (loadCustomBuildConfig c2Env)
            c2Env.dirExists).success = true)))) :=
  ⟨rfl, c2_success_iff c2Env true 0 "ok" rfl⟩

/-- C3 counterexample: in the concrete run `c3Env` the build subprocess
exits 1, yet the configured post-build command still runs — post-build
commands are not gated on build success, so the claim as stated is
false. -/
theorem c3_counterexample_post_build_not_gated : ¬ c3ClaimStatement := by
  intro h
  have hc := (h c3Env true 1 "boom" ["postfail"] rfl (by decide) (by decide)).1
  have h1 : (1 : Int) = 0 := hc (by decide)
  exact absurd h1 (by decide)

/-- C3 (amended, `functional_correctness`): with non-empty configured
post-build commands, the post-build phase runs whenever a custom
configuration is in use, regardless of the build exit code; the phase stops
at its own first failing command, but a failing post-build command does not
degrade `success` — the returned BuildResult is exactly what it would have
been had every pre/post command succeeded — and the captured build output
is retained. -/
theorem c3_post_build_behavior (env : ExecEnv) (u : Bool) (code : Int)
    (out : String) (cmds : List String)
    (hspawn : env.spawn = .closed code out)
    (huse : (u || hasCustomBuildConfig env) = true)
    (hcmds : (loadCustomBuildConfig env).bind (fun c => c.postBuildCommands) = some cmds)
    (hne : cmds ≠ []) :
    (executeBuild env u).postBuildRan =
        cmds.takeWhile (fun c => env.exec c == 0) ++
          (cmds.dropWhile (fun c => env.exec c == 0)).take 1 ∧
    (executeBuild env u).result =
      (executeBuild { env with exec := fun _ => 0 } u).result ∧
    (executeBuild env u).result.output = out := by
  obtain ⟨c, hl, hc⟩ :
      ∃ c, loadCustomBuildConfig env = some c ∧ c.postBuildCommands = some cmds := by
    cases hl : loadCustomBuildConfig env with
    | none => rw [hl] at hcmds; simp at hcmds
    | some c => rw [hl] at hcmds; exact ⟨c, rfl, hcmds⟩
  have hemp : cmds.isEmpty = false := by
    cases cmds with
    | nil => exact absurd rfl hne
    | cons a l => rfl
  have hpost : ∀ e : String → Int,
      runPostBuildCommands (loadCustomBuildConfig env) e = runCommandsSeq e cmds := by
    intro e
    rw [hl]
    unfold runPostBuildCommands
    simp [hc, hemp]
  refine ⟨?_, ?_, ?_⟩
  · simp [executeBuild, huse, hspawn, hpost, runCommandsSeq_ran]
  · simp [executeBuild, hspawn, hasCustomBuildConfig, loadCustomBuildConfig]
  · simp [executeBuild, hspawn]

theorem c3_post_build_behavior_witness :
    (c3Env.spawn = .closed 1 "boom") ∧
    ((true || hasCustomBuildConfig c3Env) = true) ∧
    ((loadCustomBuildConfig c3Env).bind (fun c => c.postBuildCommands) =
      some ["postfail"]) ∧
    (["postfail"] ≠ ([] : List String)) ∧
    ((executeBuild c3Env true).postBuildRan =
        (["postfail"].takeWhile (fun c => c3Env.exec c == 0)) ++
          ((["postfail"].dropWhile (fun c => c3Env.exec c == 0)).take 1) ∧
      (executeBuild c3Env true).result =
        (executeBuild { c3Env with exec := fun _ => 0 } true).result ∧
      (executeBuild c3Env true).result.output = "boom") :=
  ⟨rfl, by decide, by decide, by decide,
    c3_post_build_behavior c3Env true 1 "boom" ["postfail"]
      rfl (by decide) (by decide) (by decide)⟩

/-- C5 counterexample: with `exclude = ["node_modules"]` and
`include = ["dist"]`, the zip strategy still writes `src/index.js` — the
base `**/*` glob is not restricted by the include patterns — although that
path matches no include pattern, so the claim as stated (quantified over
every compression format) is false. -/
theorem c5_counterexample_zip_not_restricted : ¬ c5ClaimStatement := by
  intro h
  have hc :=
    (h { exclude := ["node_modules"], includes := ["dist"] } "src/index.js"
      (by decide)).1 (by decide)
  exact absurd hc.1 (by decide)

/-- C5 (amended, `functional_correctness`): for the tar and tar.gz
strategies (which share the `filter` callback) the claim holds — with a
non-empty include set, a path survives the filter only if it matches at
least one include pattern and matches no exclude pattern.  For the zip
strategy include patterns are additive instead: they re-admit matching
paths regardless of excludes and do not restrict the base `**/*` set. -/
theorem c5_tar_include_restricts (patterns : Patterns) (p : String)
    (hinc : patterns.includes ≠ [])
    (hpass : tarFilter patterns p = true) :
    (patterns.includes.any fun pattern => patternMatches pattern p) = true ∧
    (patterns.exclude.any fun pattern => patternMatches pattern p) = false := by
  by_cases hex : (patterns.exclude.any fun pattern => patternMatches pattern p) = true
  · unfold tarFilter at hpass
    simp [hex] at hpass
  · have hex' : (patterns.exclude.any fun pattern => patternMatches pattern p) = false := by
      simpa using hex
    have hlen : patterns.includes.length > 0 := List.length_pos.mpr hinc
    have hform : tarFilter patterns p =
        (patterns.includes.any fun pattern => patternMatches pattern p) := by
      unfold tarFilter
      rw [hex']
      simp [hlen]
    rw [hform] at hpass
    exact ⟨hpass, hex'⟩

theorem c5_tar_include_restricts_witness :
    (({ exclude := ["node_modules"], includes := ["dist"] } : Patterns).includes ≠ []) ∧
    (tarFilter { exclude := ["node_modules"], includes := ["dist"] } "dist/app.js" = true) ∧
    ((["dist"].any fun pattern => patternMatches pattern "dist/app.js") = true ∧
      (["node_modules"].any fun pattern => patternMatches pattern "dist/app.js") = false) :=
  ⟨by decide, by decide,
    c5_tar_include_restricts { exclude := ["node_modules"], includes := ["dist"] }
      "dist/app.js" (by decide) (by decide)⟩

/-- C6 counterexample: when the tar-creation stage itself rejects after
partially writing the temporary file, the `.catch(reject)` path performs
no cleanup, so the temporary tar file can survive a rejection. -/
theorem c6_counterexample_tar_stage_no_cleanup : ¬ c6ClaimStatement := by
  intro h
  exact absurd (h (.err true) .finish) (by decide)

/-- C6 (amended, `error_handling`): once the temporary tar file has been
materialized (the tar stage resolved), every way the gzip streaming stage
can settle — finish, read error, or write error — unlinks the temporary
file, so it no longer exists afterwards; the guarantee does not cover a
rejection of the tar-creation stage itself. -/
theorem c6_gzip_stage_cleanup (ev : GzStreamEvent) :
    (createTarGzArchive .ok ev).tmpTarExists = false := by
  cases ev <;> rfl

/-- C8 counterexample: a manifest with no framework dependency and a valid
`start` script, but whose declared `main` entry does not exist on disk,
detects as `unknown` — `isNodeProject` returns the existence of the `main`
file without ever reaching the `start`-script check. -/
theorem c8_counterexample_missing_main : ¬ c8ClaimStatement := by
  intro h
  have hc := h c8Fs { scripts := [("start", "node index.js")], main := some "app-main.js" }
    rfl (by decide) (by decide) (by decide) (by decide)
  exact absurd hc (by decide)

/-- C8 (amended, `functional_correctness`): a parsed manifest with a truthy
`start` script detects as `node` provided additionally that no Next.js or
Express markers are present (dependency entries, config files, directory
conventions, or express-importing server files) and that the declared
`main` entry, when truthy, exists on disk. -/
theorem c8_node_detection (fsv : ProjectFS) (pkg : PackageJson)
    (hpkg : fsv.pkg = some pkg)
    (hexists : hasFile fsv "package.json" = true)
    (hstart : strTruthy (objGet pkg.scripts "start") = true)
    (hnext : isNextProject fsv pkg = false)
    (hexpress : isExpressProject fsv pkg = false)
    (hmain : pkg.main = none ∨
      ∃ m, pkg.main = some m ∧ (m = "" ∨ hasFile fsv m = true)) :
    detectProjectType fsv = "node" := by
  have hnode : isNodeProject fsv = true := by
    unfold isNodeProject
    rw [hpkg]
    simp only [hexists, Bool.not_true, Bool.false_eq_true, if_false]
    rcases hmain with h | ⟨m, hm, hcase⟩
    · simp [h, isNodeProjectRest, hstart]
    · rcases hcase with he | hf
      · simp [hm, he, isNodeProjectRest, hstart]
      · by_cases hm0 : m = ""
        · simp [hm, hm0, isNodeProjectRest, hstart]
        · simp [hm, hm0, hf]
  unfold detectProjectType
  rw [hpkg]
  simp [hexists, hnext, hexpress, hnode]

theorem c8_node_detection_witness :
    (c8WitnessFs.pkg = some { scripts := [("start", "node index.js")] }) ∧
    (hasFile c8WitnessFs "package.json" = true) ∧
    (strTruthy (objGet ({ scripts := [("start", "node index.js")] } :
      PackageJson).scripts "start") = true) ∧
    (isNextProject c8WitnessFs { scripts := [("start", "node index.js")] } = false) ∧
    (isExpressProject c8WitnessFs { scripts := [("start", "node index.js")] } = false) ∧
    (({ scripts := [("start", "node index.js")] } : PackageJson).main = none ∨
      ∃ m, ({ scripts := [("start", "node index.js")] } : PackageJson).main = some m ∧
        (m = "" ∨ hasFile c8WitnessFs m = true)) ∧
    detectProjectType c8WitnessFs = "node" :=
  ⟨rfl, by decide, by decide, by decide, by decide, Or.inl rfl,
    c8_node_detection c8WitnessFs { scripts := [("start", "node index.js")] }
      rfl (by decide) (by decide) (by decide) (by decide) (Or.inl rfl)⟩

/-- C9 counterexample: two consecutive progress events above the 50 MiB
threshold log the warning twice — the source has no once-only flag, so the
claim as stated is false. -/
theorem c9_counterexample_warning_repeats : ¬ c9ClaimStatement := by
  intro h
  have hc := h [52428801, 52428802] ⟨52428801, by decide, by decide⟩
  exact absurd hc (by decide)

/-- C9 (amended, `temporal`): the zip size warning is logged once per
progress event whose cumulative processed size exceeds 50 MiB — repeated
on every such event, not emitted a single time per build. -/
theorem c9_warning_per_event (events : List Nat) :
    (zipWarnings events).length =
      (events.filter fun b => b > 50 * 1024 * 1024).length := by
  have key : ∀ (evs : List Nat) (acc : List String),
      (evs.foldl zipWarningStep acc).length =
        acc.length + (evs.filter fun b => b > 50 * 1024 * 1024).length := by
    intro evs
    induction evs with
    | nil => intro acc; simp
    | cons e es ih =>
      intro acc
      by_cases he : e > 50 * 1024 * 1024
      · simp only [List.foldl_cons, List.filter_cons]
        simp [zipWarningStep, he, ih]
        omega
      · simp only [List.foldl_cons, List.filter_cons]
        simp [zipWarningStep, he, ih]
  simpa [zipWarnings] using key events []

/-- C10 (`functional_correctness`, implicit): when the override file exists
and supplies no `exclude` field, the resolved exclude list is exactly
`["node_modules", ".git"]`, a strict subset (as a set) of the exclude list
used when no override file exists at all — so merely creating an override
file changes which paths the artifact contains. -/
theorem c10_override_exclude_shrinks (c : CustomConfig) (outputFile : String)
    (hnoexc : c.exclude = none) :
    (createCompressedArchivePatterns true (some c) none none outputFile).exclude =
      ["node_modules", ".git"] ∧
    (createCompressedArchivePatterns true (some c) none none
        outputFile).exclude.toFinset ⊂
      (createCompressedArchivePatterns false none none none
        outputFile).exclude.toFinset := by
  have hsmall :
      (createCompressedArchivePatterns true (some c) none none outputFile).exclude =
        ["node_modules", ".git"] := by
    simp [createCompressedArchivePatterns, getDeploymentPatterns, hnoexc]
  have hbig :
      (createCompressedArchivePatterns false none none none outputFile).exclude =
        ["node_modules", ".git", ".github", "coverage", "tests", "test", "*.log",
          outputFile] := by
    simp [createCompressedArchivePatterns]
  refine ⟨hsmall, ?_⟩
  rw [hsmall, hbig, Finset.ssubset_def]
  constructor
  · intro x hx
    rw [List.mem_toFinset] at hx ⊢
    rcases List.mem_cons.mp hx with h | h
    · subst h; simp
    · rcases List.mem_cons.mp h with h | h
      · subst h; simp
      · exact absurd h (List.not_mem_nil x)
  · intro hsub
    have h1 : ".github" ∈ (["node_modules", ".git", ".github", "coverage", "tests",
        "test", "*.log", outputFile] : List String).toFinset := by
      simp
    have h2 := hsub h1
    rw [List.mem_toFinset] at h2
    exact absurd h2 (by decide)

theorem c10_override_exclude_shrinks_witness :
    (({} : CustomConfig).exclude = none) ∧
    ((createCompressedArchivePatterns true (some {}) none none "build.zip").exclude =
        ["node_modules", ".git"] ∧
      (createCompressedArchivePatterns true (some {}) none none
          "build.zip").exclude.toFinset ⊂
        (createCompressedArchivePatterns false none none none
          "build.zip").exclude.toFinset) :=
  ⟨rfl, c10_override_exclude_shrinks {} "build.zip" rfl⟩

end Kapsul
